import Mathlib

/-!
Verification development for the Backlinkbotbackend server (`src/server.js`).

The JavaScript source is shallowly embedded: JavaScript strings are Lean
`String`s (a list of characters; JS `substring` counts UTF-16 code units,
modelled here as characters), JSON values are the inductive `JsVal`,
fallible external calls (the OpenAI completion, the Supabase fetch, the
Airtable record operations) are modelled by explicit outcome parameters,
and each HTTP handler is a pure function from its request fields and the
outcomes of its external calls to the response it produces.
-/

/-- A JavaScript/JSON value, as produced by `JSON.parse` and passed around
the untyped request bodies and SDK replies. -/
inductive JsVal where
  | null
  | undefined
  | bool (b : Bool)
  | num (n : Int)
  | str (s : String)
  | arr (xs : List JsVal)
  | obj (fields : List (String × JsVal))

/-- JavaScript truthiness: `null`, `undefined`, `false`, `0` and `""` are
falsy; every object and array is truthy. -/
def truthy : JsVal → Bool
  | .null => false
  | .undefined => false
  | .bool b => b
  | .num n => decide (n ≠ 0)
  | .str s => decide (s ≠ "")
  | .arr _ => true
  | .obj _ => true

mutual

/-- JavaScript string coercion (template-literal interpolation `${v}`).
Arrays stringify to their comma-joined elements, objects to
`[object Object]`. -/
def jsToString : JsVal → String
  | .null => "null"
  | .undefined => "undefined"
  | .bool true => "true"
  | .bool false => "false"
  | .num n => toString n
  | .str s => s
  | .arr xs => jsToStringList xs
  | .obj _ => "[object Object]"

/-- Comma-joined stringification of an array's elements. -/
def jsToStringList : List JsVal → String
  | [] => ""
  | [x] => jsToString x
  | x :: y :: xs => jsToString x ++ "," ++ jsToStringList (y :: xs)

end

/-- Association-list lookup by key, first match wins; models JavaScript
property lookup `o[k]` on a plain object. -/
def alistLookup {α : Type} (k : String) : List (String × α) → Option α
  | [] => none
  | (k0, v) :: rest => if k0 = k then some v else alistLookup k rest

/-- JavaScript property access `v.k`. On `null` and `undefined` it throws a
`TypeError` (modelled as `Except.error`); on an object it returns the
field or `undefined`; on any other primitive it returns `undefined`
(the repository accesses no prototype-provided property here). -/
def jsGetProp : JsVal → String → Except Unit JsVal
  | .null, _ => .error ()
  | .undefined, _ => .error ()
  | .obj fields, k => .ok ((alistLookup k fields).getD .undefined)
  | _, _ => .ok .undefined

/-- JavaScript `String.prototype.trim`, restricted to the ASCII whitespace
that occurs in practice (space, tab, newline, carriage return). -/
def jsWhitespace (c : Char) : Bool :=
  c = ' ' || c = '\t' || c = '\n' || c = '\r'

/-- JavaScript `s.trim()`. -/
def jsTrim (s : String) : String :=
  ⟨(((s.data.dropWhile jsWhitespace).reverse.dropWhile jsWhitespace).reverse : List Char)⟩

/-- JavaScript `s.substring(0, n)`. -/
def jsSubstring (s : String) (n : Nat) : String :=
  ⟨s.data.take n⟩

/-- JavaScript `s.startsWith(pre)`. -/
def jsStartsWith (s pre : String) : Bool :=
  pre.data.isPrefixOf s.data

/-- Contiguous-sublist test used to model `s.includes(sub)`. -/
def charsContains (needle : List Char) : List Char → Bool
  | [] => needle.isEmpty
  | c :: rest => needle.isPrefixOf (c :: rest) || charsContains needle rest

/-- JavaScript `s.includes(sub)`. -/
def jsIncludes (s sub : String) : Bool :=
  charsContains sub.data s.data

/-- A link extracted from an anchor element (`{ href, text }`). -/
structure Link where
  href : String
  text : String

/-- The bounded structured content record produced by either extraction
path (spec §3 `PageContent`). -/
structure PageContent where
  title : String
  metaDescription : String
  mainContent : String
  headings : List String
  paragraphs : List String
  links : List Link

/-- Heading levels queried by the extractors (`h1`, `h2`, `h3`). -/
inductive HTag where
  | h1
  | h2
  | h3
deriving DecidableEq

/-- Abstraction of a parsed document as both extraction paths query it:
the title text, the description metas, the text of the designated
main-content containers (`main, article, .content, #content, .main`),
the whole-body text, the `h1`/`h2`/`h3` texts in document order, the
paragraph texts, and the anchors as `(href attribute, text)` pairs
(`none` when the `href` attribute is absent). Script/style/iframe/
noscript content is already excluded from the text fields, mirroring
the removal step of `extractTextContent`. -/
structure Dom where
  title : String
  metaDescription : Option String
  ogDescription : Option String
  mainTexts : List String
  bodyText : String
  headings : List (HTag × String)
  paragraphTexts : List String
  anchors : List (Option String × String)

/-- Static-HTML extraction path (`extractTextContent`, src/server.js:88).
Cheerio `.text()` on a multi-element selection concatenates the texts;
`mainContent || body` falls back to the whole-body text when the
main-area text is empty. No field is truncated on this path. -/
def extractTextContent (d : Dom) : PageContent :=
  let title := jsTrim d.title
  let metaDescription := d.metaDescription.getD ""
  let mainContent := jsTrim (String.join d.mainTexts)
  let headings := d.headings.filterMap (fun p =>
    let text := jsTrim p.2
    if text ≠ "" then some text else none)
  let paragraphs := d.paragraphTexts.filterMap (fun t =>
    let text := jsTrim t
    if text ≠ "" then some text else none)
  let links := d.anchors.filterMap (fun a =>
    let text := jsTrim a.2
    match a.1 with
    | some href =>
        if href ≠ "" ∧ text ≠ "" ∧ ¬ jsStartsWith href "#" then some ⟨href, text⟩ else none
    | none => none)
  { title := title
    metaDescription := metaDescription
    mainContent := if mainContent = "" then jsTrim d.bodyText else mainContent
    headings := headings
    paragraphs := paragraphs
    links := links }

/-- In-page helper `getText(selector, limit)` of the Puppeteer extraction
script (src/server.js:215): it walks only the first `limit` matching
elements and keeps the non-empty trimmed texts. -/
def getText (texts : List String) (limit : Nat) : List String :=
  (texts.take limit).filterMap (fun t =>
    let text := jsTrim t
    if text.length > 0 then some text else none)

/-- In-page helper `getLinks(limit)` (src/server.js:226): it walks all
anchors and collects qualifying links until `limit` of them are found.
In the rendered DOM `a.href` is the resolved URL property, `""` when
the attribute is absent; URL resolution itself is the identity in this
model since no claim inspects the href text. -/
def collectLinks (limit : Nat) : List (Option String × String) → List Link
  | [] => []
  | (href?, t) :: rest =>
    if limit = 0 then []
    else
      let href := href?.getD ""
      let text := jsTrim t
      if href ≠ "" ∧ text ≠ "" ∧ text.length > 3 ∧ ¬ jsStartsWith href "#" then
        ⟨href, text⟩ :: collectLinks (limit - 1) rest
      else
        collectLinks limit rest

/-- Texts of the headings with the given tag, in document order, as the
per-selector DOM queries `h1` / `h2` / `h3` return them. -/
def headingsOf (d : Dom) (t : HTag) : List String :=
  d.headings.filterMap (fun p => if p.1 = t then some p.2 else none)

/-- Headless extraction path: the `page.evaluate` script of
`scrapeWebsiteWithPuppeteer` (src/server.js:207). Main content is the
space-joined trimmed main-area texts cut to 3000 characters, with the
body text (also cut to 3000) as fallback; headings take the first 5
`h1`, 10 `h2` and 10 `h3` texts; paragraphs the first 15; links the
first 30 qualifying anchors. -/
def pageEvaluateExtract (d : Dom) : PageContent :=
  { title := d.title
    metaDescription :=
      if d.metaDescription.getD "" ≠ "" then d.metaDescription.getD ""
      else d.ogDescription.getD ""
    mainContent :=
      if d.mainTexts.length > 0 then
        jsSubstring (String.intercalate " " (d.mainTexts.map jsTrim)) 3000
      else
        jsSubstring d.bodyText 3000
    headings :=
      getText (headingsOf d .h1) 5 ++ getText (headingsOf d .h2) 10 ++
        getText (headingsOf d .h3) 10
    paragraphs := getText d.paragraphTexts 15
    links := collectLinks 30 d.anchors }

/-- The record returned by `analyzeWebsiteWithGPT` (spec §3
`AnalysisResult`). `description` and the list elements keep the untyped
JavaScript values the code passes through. -/
structure AnalysisResult where
  description : JsVal
  categories : List JsVal
  features : List JsVal
  analysisDate : String
  suggestedDirectories : Int

/-- Outcome of the external summarizer call as seen by the `try` block of
`analyzeWebsiteWithGPT`: either some awaited call or `JSON.parse`
threw (`failure` covers the API error, the empty and the malformed
reply), or parsing succeeded with the given JSON value. -/
inductive GPTReply where
  | failure
  | parsed (analysis : JsVal)

/-- Fallback result of the `catch` branch of `analyzeWebsiteWithGPT`
(src/server.js:463): every field carries its named default. -/
def fallbackAnalysis (websiteName : JsVal) (now : String) : AnalysisResult :=
  { description := .str ((if truthy websiteName then jsToString websiteName else "This website")
      ++ " provides digital services and solutions for online users.")
    categories := [.str "Technology", .str "Internet", .str "Business"]
    features := [.str "User-friendly interface", .str "Digital solutions", .str "Online services"]
    analysisDate := now
    suggestedDirectories := 467 }

/-- The result-shaping tail of the `try` block (src/server.js:449):
property accesses on the parsed value (which throw when it is `null`
or `undefined`), truthiness check on `description`, array check and
`slice(0, 3)` on `categories` and `features`. -/
def analyzeSuccess (analysis : JsVal) (now : String) : Except Unit AnalysisResult := do
  let desc ← jsGetProp analysis "description"
  let cats ← jsGetProp analysis "categories"
  let feats ← jsGetProp analysis "features"
  .ok
    { description := if truthy desc then desc
        else .str "A website offering digital services and solutions."
      categories :=
        match cats with
        | .arr xs => if xs.length > 0 then xs.take 3
            else [.str "Technology", .str "Business", .str "Internet"]
        | _ => [.str "Technology", .str "Business", .str "Internet"]
      features :=
        match feats with
        | .arr xs => if xs.length > 0 then xs.take 3
            else [.str "User-friendly interface", .str "Digital solutions", .str "Online services"]
        | _ => [.str "User-friendly interface", .str "Digital solutions", .str "Online services"]
      analysisDate := now
      suggestedDirectories := 467 }

/-- `analyzeWebsiteWithGPT` (src/server.js:389). The content record only
feeds the prompt of the external call, whose outcome is the `reply`
parameter; `now` is the `new Date().toISOString()` stamp. Any throw
inside the `try` block lands in the fallback branch. -/
def analyzeWebsiteWithGPT (_content : PageContent) (reply : GPTReply) (websiteName : JsVal)
    (now : String) : AnalysisResult :=
  match reply with
  | .failure => fallbackAnalysis websiteName now
  | .parsed analysis =>
    match analyzeSuccess analysis now with
    | .ok r => r
    | .error _ => fallbackAnalysis websiteName now

/-- URL normalization of the scrape endpoint (src/server.js:312): prepend
`https://` unless the input starts with `http://` or `https://`. -/
def normalizeUrl (websiteUrl : String) : String :=
  if ¬ jsStartsWith websiteUrl "http://" ∧ ¬ jsStartsWith websiteUrl "https://" then
    "https://" ++ websiteUrl
  else
    websiteUrl

/-- Outcome of the race between `scrapeWebsiteWithPuppeteer(url)` and the
90-second timeout promise inside the scrape endpoint: the scrape
succeeded, the scrape rejected with some error message, or the timeout
promise rejected first with its fixed message. -/
inductive ScrapeOutcome where
  | ok (content : Dom)
  | scrapeError (msg : String)
  | timedOut

/-- The message of the timeout promise's rejection (src/server.js:307). -/
def timeoutMessage : String := "Operation timed out after 90 seconds"

/-- Response of the scrape endpoint as far as the claims observe it: the
HTTP status, whether the fetch/render operation was ever started, and
the `message` field of an error body (`none` on the 400 and 200
replies, whose bodies carry no upstream error message). -/
structure ScrapeResponse where
  status : Nat
  scrapeAttempted : Bool
  errorMessage : Option String

/-- Handler of `POST /api/scrape-website` (src/server.js:291). A missing
or empty `websiteUrl` returns 400 before any work starts; otherwise the
scrape races the timeout, the GPT analysis and the optional database
insert never throw, and the catch branch picks 504 when the error
message contains `timed out`, else 500 with the upstream message. -/
def scrapeWebsiteHandler (websiteUrl : Option String) (outcome : ScrapeOutcome) : ScrapeResponse :=
  if (websiteUrl.getD "") = "" then
    { status := 400, scrapeAttempted := false, errorMessage := none }
  else
    match outcome with
    | .ok _ => { status := 200, scrapeAttempted := true, errorMessage := none }
    | .timedOut =>
      if jsIncludes timeoutMessage "timed out" then
        { status := 504, scrapeAttempted := true, errorMessage := none }
      else
        { status := 500, scrapeAttempted := true, errorMessage := some timeoutMessage }
    | .scrapeError msg =>
      if jsIncludes msg "timed out" then
        { status := 504, scrapeAttempted := true, errorMessage := none }
      else
        { status := 500, scrapeAttempted := true, errorMessage := some msg }

/-- The `relevant_directories` value persisted by the scrape endpoint
(src/server.js:347): `gptAnalysis?.suggestedDirectories?.length || 0`.
`suggestedDirectories` is a JavaScript number, and a number value has
no own `length` property and none on `Number.prototype`, so the access
yields `undefined`. -/
def jsNumberProp (_n : Int) (_k : String) : JsVal := .undefined

/-- JavaScript `a || b`. -/
def jsOr (a b : JsVal) : JsVal := if truthy a then a else b

/-- The persisted `relevant_directories` field computed from an analysis
result. -/
def relevantDirectoriesValue (a : AnalysisResult) : JsVal :=
  jsOr (jsNumberProp a.suggestedDirectories "length") (.num 0)

/-- A source row fetched from Supabase, as the JavaScript object the sync
code iterates with `Object.entries`. -/
def SupaRecord : Type := List (String × JsVal)

/-- A field value as written to Airtable by `processAirtableBatch`
(src/server.js:529): array-valued fields are serialized with
`JSON.stringify` (modelled abstractly by tagging the array — the
serialization is injective and never compared to a raw scalar), every
other value passes through. -/
inductive PreparedVal where
  | scalar (v : JsVal)
  | serializedArray (xs : List JsVal)

/-- Conversion of one field value: `Array.isArray(value)` decides between
`JSON.stringify(value)` and pass-through. -/
def prepareVal : JsVal → PreparedVal
  | .arr xs => .serializedArray xs
  | v => .scalar v

/-- The per-record field preparation loop of `processAirtableBatch`. -/
def prepareRecord (record : SupaRecord) : List (String × PreparedVal) :=
  record.map (fun kv => (kv.1, prepareVal kv.2))

/-- A destination (Airtable) row: its record id and its fields. -/
structure ARow where
  rid : Nat
  payload : List (String × PreparedVal)

/-- The destination table state: its rows and the next fresh record id. -/
structure AStore where
  rows : List ARow
  nextId : Nat

/-- The string interpolated into the lookup formula
`filterByFormula: equality of the key field with the quoted
template-interpolated record key` (src/server.js:541). -/
def recordKeyStr (keyField : String) (record : SupaRecord) : String :=
  jsToString ((alistLookup keyField record).getD .undefined)

/-- Whether a destination row satisfies the lookup formula: its stored
key-field value, coerced to a string, equals the interpolated key. A
serialized array is never equal to the raw interpolated scalar. -/
def matchesKey (keyField keyStr : String) (row : ARow) : Bool :=
  match alistLookup keyField row.payload with
  | some (.scalar v) => decide (jsToString v = keyStr)
  | _ => false

/-- Set one field of a destination row's payload (Airtable `update`
merges the given fields into the record). -/
def setField : List (String × PreparedVal) → String → PreparedVal → List (String × PreparedVal)
  | [], k, v => [(k, v)]
  | (k0, v0) :: rest, k, v =>
    if k0 = k then (k, v) :: rest else (k0, v0) :: setField rest k v

/-- Merge a prepared record into an existing row's payload, field by
field. -/
def updateFields (payload upd : List (String × PreparedVal)) : List (String × PreparedVal) :=
  upd.foldl (fun acc kv => setField acc kv.1 kv.2) payload

/-- Which Airtable write the reconciliation performed for one record. -/
inductive AirOp where
  | create
  | update
deriving DecidableEq

/-- Reconcile one source record into the destination store
(src/server.js:538): look up an existing row by the key field
(`maxRecords: 1`, so the first match), update it if found, create a
new row otherwise. -/
def processRecord (keyField : String) (st : AStore) (record : SupaRecord) : AStore × AirOp :=
  match st.rows.find? (matchesKey keyField (recordKeyStr keyField record)) with
  | some row =>
    ({ st with rows := st.rows.map (fun r0 =>
        if r0.rid = row.rid then
          { r0 with payload := updateFields r0.payload (prepareRecord record) } else r0) },
     .update)
  | none =>
    ({ rows := st.rows ++ [⟨st.nextId, prepareRecord record⟩], nextId := st.nextId + 1 }, .create)

/-- `processAirtableBatch` (src/server.js:524) with failure injection:
`fails r` says that one of the Airtable calls for record `r` rejects,
which the function's catch logs and rethrows, aborting the rest of the
batch. Returns the store after the performed writes, the operations
performed, and whether the whole batch succeeded. -/
def processAirtableBatch (keyField : String) (fails : SupaRecord → Bool) (st : AStore) :
    List SupaRecord → AStore × List AirOp × Bool
  | [] => (st, [], true)
  | r :: rest =>
    if fails r then (st, [], false)
    else
      let p := processRecord keyField st r
      let q := processAirtableBatch keyField fails p.1 rest
      (q.1, p.2 :: q.2.1, q.2.2)

/-- The batching loop of `syncToAirtable` (src/server.js:506):
`records.slice(i, i + 10)` for `i = 0, 10, 20, ...`. -/
def chunksOf10 : List SupaRecord → List (List SupaRecord)
  | [] => []
  | r :: rest => (r :: rest).take 10 :: chunksOf10 ((r :: rest).drop 10)
termination_by l => l.length
decreasing_by simp_all [List.length_drop]; omega

/-- Run the batches sequentially; a failed batch rethrows into the
enclosing catch, so the remaining batches never run. -/
def runBatches (keyField : String) (fails : SupaRecord → Bool) (st : AStore) :
    List (List SupaRecord) → AStore × Bool
  | [] => (st, true)
  | b :: bs =>
    let p := processAirtableBatch keyField fails st b
    if p.2.2 then runBatches keyField fails p.1 bs else (p.1, false)

/-- Outcome of the Supabase fetch of a sync pass: the row set, or a
fetch-level error (the `error` field of the reply being set). -/
inductive FetchResult where
  | ok (records : List SupaRecord)
  | err

/-- `syncToAirtable` (src/server.js:479): on a fetch-level error it
returns the prior cursor; it processes the fetched rows in batches of
10, any thrown batch error lands in the catch which also returns the
prior cursor; only a fully processed fetch set returns `new Date()`
(the `now` parameter) as the new cursor. The store result carries the
partial writes performed before a failure. -/
def syncToAirtable (keyField : String) (fails : SupaRecord → Bool) (fetch : FetchResult)
    (st : AStore) (lastSyncTime : Option Nat) (now : Nat) : AStore × Option Nat :=
  match fetch with
  | .err => (st, lastSyncTime)
  | .ok records =>
    let p := runBatches keyField fails st (chunksOf10 records)
    if p.2 then (p.1, some now) else (p.1, lastSyncTime)

/-- The keys of `TABLE_MAPPINGS` (src/server.js:43), in definition
order, as `Object.keys` enumerates them. -/
def TABLE_MAPPING_KEYS : List String := ["payments", "product_submissions"]

/-- The `keyField` of both table mappings is `id`. -/
def mappingKeyField (_tableKey : String) : String := "id"

/-- Handler of `POST /api/sync-airtable` (src/server.js:581): it runs
`syncToAirtable` for every mapping key, storing the returned cursors,
and replies 200 with success `true`. Its catch branch would reply 500,
but no modelled iteration throws — `syncToAirtable` catches every
fetch-level and per-row error internally — so the handler's reply does
not depend on any outcome. -/
def syncAirtableHandler (fetch : String → FetchResult) (fails : String → SupaRecord → Bool)
    (stores : String → AStore) (lastSync : String → Option Nat) (now : Nat) :
    (Nat × Bool) × List (String × Option Nat) :=
  let newCursors := TABLE_MAPPING_KEYS.map (fun k =>
    (k, (syncToAirtable (mappingKeyField k) (fails k) (fetch k) (stores k) (lastSync k) now).2))
  ((200, true), newCursors)

/-- The registered status email templates (src/server.js:660), keyed by
status value, with their subjects; the HTML bodies are pure string
templates the dispatcher logic never inspects. -/
def EMAIL_TEMPLATES : List (String × String) :=
  [("verifying", "Your Product Submission is Being Verified"),
   ("in progress", "Your Product Submission is In Progress"),
   ("done", "Your Product Submission Process is Complete"),
   ("feedback1", "Feedback Required for Your Product Submission"),
   ("pending", "Product Submission Pending Review"),
   ("approved", "Congratulations! Your Product Has Been Approved"),
   ("rejected", "Update on Your Product Submission")]

/-- A product submission row as the status endpoint reads it. -/
structure Submission where
  product_name : String
  email_user : Option String
  status : String

/-- Outcome of the Supabase `.select().single()` fetch of the status
endpoint: a thrown error, or the (possibly absent) submission row. -/
inductive SubmissionFetch where
  | fetchError
  | found (s : Option Submission)

/-- Response of the status endpoint as far as the claims observe it: the
HTTP status, and whether an email send was attempted. -/
structure StatusResponse where
  status : Nat
  emailAttempted : Bool

/-- Handler of `POST /api/product-submissions/status` (src/server.js:739).
Missing or empty `submissionId`/`newStatus` reply 400; a fetch error or
update error throws into the catch (500); a missing row replies 404.
After a successful update: a registered template plus a truthy
`email_user` attempts the send, whose failure is logged and swallowed;
no template, or no recipient, skips the send silently; the handler then
replies 200 in every one of those cases. -/
def productSubmissionStatusHandler (submissionId newStatus : Option String)
    (fetch : SubmissionFetch) (updateFails : Bool) (_emailFails : Bool) : StatusResponse :=
  if (submissionId.getD "") = "" ∨ (newStatus.getD "") = "" then
    { status := 400, emailAttempted := false }
  else
    match fetch with
    | .fetchError => { status := 500, emailAttempted := false }
    | .found none => { status := 404, emailAttempted := false }
    | .found (some submission) =>
      if updateFails then
        { status := 500, emailAttempted := false }
      else
        match alistLookup (newStatus.getD "") EMAIL_TEMPLATES with
        | some _ =>
          if (submission.email_user.getD "") = "" then
            { status := 200, emailAttempted := false }
          else
            { status := 200, emailAttempted := true }
        | none => { status := 200, emailAttempted := false }

/-- Helper: the shape of the `try`-block result on any successfully parsed
object reply. -/
theorem analyzeSuccess_ok_suggested (analysis : JsVal) (now : String) (r : AnalysisResult)
    (h : analyzeSuccess analysis now = .ok r) : r.suggestedDirectories = 467 := by
  unfold analyzeSuccess at h
  cases hd : jsGetProp analysis "description" with
  | error e => simp [hd, Bind.bind, Except.bind] at h
  | ok desc =>
    cases hc : jsGetProp analysis "categories" with
    | error e => simp [hd, hc, Bind.bind, Except.bind] at h
    | ok cats =>
      cases hf : jsGetProp analysis "features" with
      | error e => simp [hd, hc, hf, Bind.bind, Except.bind] at h
      | ok feats =>
        simp [hd, hc, hf, Bind.bind, Except.bind] at h
        subst h
        rfl

/-- C3: for every content record, display name and summarizer outcome, the
adapter is a total function (it never raises); when the external call
fails, or its reply is unparseable or parses to a value whose property
access throws, the result is the deterministic fallback record whose
fields carry the named defaults, never null. -/
theorem summarizer_never_raises (content : PageContent) (websiteName : JsVal) (now : String) :
    analyzeWebsiteWithGPT content .failure websiteName now = fallbackAnalysis websiteName now ∧
    analyzeWebsiteWithGPT content (.parsed .null) websiteName now = fallbackAnalysis websiteName now ∧
    (fallbackAnalysis websiteName now).categories =
      [.str "Technology", .str "Internet", .str "Business"] ∧
    (fallbackAnalysis websiteName now).features =
      [.str "User-friendly interface", .str "Digital solutions", .str "Online services"] ∧
    (fallbackAnalysis websiteName now).analysisDate = now ∧
    (fallbackAnalysis websiteName now).suggestedDirectories = 467 := by
  exact ⟨rfl, rfl, rfl, rfl, rfl, rfl⟩

/-- C10: every analysis result carries the constant `suggestedDirectories`
value 467, on the success and the fallback paths alike, and the
persisted `relevant_directories` value computed from it is always 0,
because a JavaScript number has no `length` property. -/
theorem suggestedDirectories_always_467 (content : PageContent) (reply : GPTReply)
    (websiteName : JsVal) (now : String) :
    (analyzeWebsiteWithGPT content reply websiteName now).suggestedDirectories = 467 ∧
    relevantDirectoriesValue (analyzeWebsiteWithGPT content reply websiteName now) = .num 0 := by
  constructor
  · cases reply with
    | failure => rfl
    | parsed analysis =>
      cases hs : analyzeSuccess analysis now with
      | ok r =>
        have hr : analyzeWebsiteWithGPT content (.parsed analysis) websiteName now = r := by
          simp only [analyzeWebsiteWithGPT]
          rw [hs]
        rw [hr]
        exact analyzeSuccess_ok_suggested analysis now r hs
      | error e =>
        have hr : analyzeWebsiteWithGPT content (.parsed analysis) websiteName now =
            fallbackAnalysis websiteName now := by
          simp only [analyzeWebsiteWithGPT]
          rw [hs]
        rw [hr]
        rfl
  · rfl

/-- C9: the manual sync endpoint replies 200 with success `true` for every
combination of fetch and per-row outcomes — its 500 branch is
unreachable because `syncToAirtable` returns the prior cursor instead
of throwing — so a wholly failed pass is indistinguishable from a
successful one in the HTTP response, even though a failed fetch leaves
that mapping's cursor at its prior value. -/
theorem manual_sync_always_reports_success (fetch : String → FetchResult)
    (fails : String → SupaRecord → Bool) (stores : String → AStore)
    (lastSync : String → Option Nat) (now : Nat) :
    (syncAirtableHandler fetch fails stores lastSync now).1 = (200, true) ∧
    (fetch "payments" = .err →
      alistLookup "payments" (syncAirtableHandler fetch fails stores lastSync now).2 =
        some (lastSync "payments")) := by
  constructor
  · rfl
  · intro herr
    simp only [syncAirtableHandler, TABLE_MAPPING_KEYS, List.map, alistLookup, if_pos rfl]
    rw [herr]
    rfl

/-- Witness for C9 at a concrete environment: a fetch error on every
table still yields a 200 success reply while the payments cursor stays
at its prior value. -/
theorem manual_sync_always_reports_success_witness :
    (syncAirtableHandler (fun _ => .err) (fun _ _ => false) (fun _ => ⟨[], 0⟩)
        (fun _ => some 5) 9).1 = (200, true) ∧
    alistLookup "payments" (syncAirtableHandler (fun _ => .err) (fun _ _ => false)
        (fun _ => ⟨[], 0⟩) (fun _ => some 5) 9).2 = some (some 5) :=
  ⟨(manual_sync_always_reports_success (fun _ => .err) (fun _ _ => false) (fun _ => ⟨[], 0⟩)
      (fun _ => some 5) 9).1,
   (manual_sync_always_reports_success (fun _ => .err) (fun _ _ => false) (fun _ => ⟨[], 0⟩)
      (fun _ => some 5) 9).2 rfl⟩

/-- C6: for a status update on an existing submission whose database
update succeeds, a status value with no registered email template
still yields a 200 reply with no email send attempted, and when a send
is attempted and the email service fails, the failure is swallowed and
the endpoint still replies 200. -/
theorem status_update_email_policy (sid ns : Option String) (sub : Submission)
    (hsid : (sid.getD "") ≠ "") (hns : (ns.getD "") ≠ "") :
    (alistLookup (ns.getD "") EMAIL_TEMPLATES = none →
      ∀ emailFails, productSubmissionStatusHandler sid ns (.found (some sub)) false emailFails =
        { status := 200, emailAttempted := false }) ∧
    (∀ subject, alistLookup (ns.getD "") EMAIL_TEMPLATES = some subject →
      (sub.email_user.getD "") ≠ "" →
      productSubmissionStatusHandler sid ns (.found (some sub)) false true =
        { status := 200, emailAttempted := true }) := by
  constructor
  · intro hnone emailFails
    simp [productSubmissionStatusHandler, hsid, hns, hnone]
  · intro subject hsome hemail
    simp [productSubmissionStatusHandler, hsid, hns, hsome, hemail]

/-- Witness for C6 at concrete inputs: the unregistered status value
`archived` updates successfully with no send attempted, and the
registered status `approved` with a failing email service still
reports success with a send attempted. -/
theorem status_update_email_policy_witness :
    productSubmissionStatusHandler (some "sub-1") (some "archived")
      (.found (some ⟨"Widget", some "user@example.com", "pending"⟩)) false true =
      { status := 200, emailAttempted := false } ∧
    productSubmissionStatusHandler (some "sub-1") (some "approved")
      (.found (some ⟨"Widget", some "user@example.com", "pending"⟩)) false true =
      { status := 200, emailAttempted := true } :=
  ⟨(status_update_email_policy (some "sub-1") (some "archived")
      ⟨"Widget", some "user@example.com", "pending"⟩ (by decide) (by decide)).1 (by decide) true,
   (status_update_email_policy (some "sub-1") (some "approved")
      ⟨"Widget", some "user@example.com", "pending"⟩ (by decide) (by decide)).2
      "Congratulations! Your Product Has Been Approved" (by decide) (by decide)⟩

/-- C7: the scrape endpoint replies 400 with no side effects when
`websiteUrl` is missing or empty, 504 when the 90-second race rejects
with the distinct timed-out error, and 500 with the upstream error
message for any rejection whose message does not contain `timed out`
(which is how the code distinguishes the two kinds). -/
theorem scrape_endpoint_statuses (websiteUrl : Option String) (outcome : ScrapeOutcome) :
    ((websiteUrl.getD "") = "" →
      scrapeWebsiteHandler websiteUrl outcome =
        { status := 400, scrapeAttempted := false, errorMessage := none }) ∧
    ((websiteUrl.getD "") ≠ "" → outcome = .timedOut →
      (scrapeWebsiteHandler websiteUrl outcome).status = 504) ∧
    (∀ msg, (websiteUrl.getD "") ≠ "" → outcome = .scrapeError msg →
      jsIncludes msg "timed out" = false →
      (scrapeWebsiteHandler websiteUrl outcome).status = 500 ∧
      (scrapeWebsiteHandler websiteUrl outcome).errorMessage = some msg) := by
  refine ⟨?_, ?_, ?_⟩
  · intro hempty
    simp [scrapeWebsiteHandler, hempty]
  · intro hurl hout
    subst hout
    have htimed : jsIncludes timeoutMessage "timed out" = true := by decide
    simp [scrapeWebsiteHandler, hurl, htimed]
  · intro msg hurl hout hmsg
    subst hout
    simp [scrapeWebsiteHandler, hurl, hmsg]

/-- Witness for C7 at concrete inputs: the missing-URL 400 with no fetch
started, the deadline 504, and a generic navigation failure 500 with
its message attached. -/
theorem scrape_endpoint_statuses_witness :
    scrapeWebsiteHandler none .timedOut =
      { status := 400, scrapeAttempted := false, errorMessage := none } ∧
    (scrapeWebsiteHandler (some "example.com") .timedOut).status = 504 ∧
    (scrapeWebsiteHandler (some "example.com")
      (.scrapeError "net::ERR_NAME_NOT_RESOLVED")).status = 500 ∧
    (scrapeWebsiteHandler (some "example.com")
      (.scrapeError "net::ERR_NAME_NOT_RESOLVED")).errorMessage =
      some "net::ERR_NAME_NOT_RESOLVED" := by
  refine ⟨(scrape_endpoint_statuses none .timedOut).1 rfl,
    (scrape_endpoint_statuses (some "example.com") .timedOut).2.1 (by decide) rfl,
    ?_, ?_⟩
  · exact ((scrape_endpoint_statuses (some "example.com")
      (.scrapeError "net::ERR_NAME_NOT_RESOLVED")).2.2 "net::ERR_NAME_NOT_RESOLVED"
      (by decide) rfl (by decide)).1
  · exact ((scrape_endpoint_statuses (some "example.com")
      (.scrapeError "net::ERR_NAME_NOT_RESOLVED")).2.2 "net::ERR_NAME_NOT_RESOLVED"
      (by decide) rfl (by decide)).2

/-- A character allowed after the first one in a URI scheme
(RFC 3986: letters, digits, plus, hyphen, dot). -/
def isSchemeChar (c : Char) : Bool :=
  c.isAlphanum || c = '+' || c = '-' || c = '.'

/-- Refinement-side definition following the spec's words: the input
"already carries a scheme" when a nonempty letter-led scheme name
terminated by a colon precedes the rest of the URL. -/
def specCarriesScheme (s : String) : Bool :=
  let pre := s.data.takeWhile (fun c => !(c = ':'))
  decide (pre.length < s.data.length) &&
    (match pre with
     | [] => false
     | c :: rest => c.isAlpha && rest.all isSchemeChar)

/-- Helper: a string starting with `http:` carries a scheme in the spec's
sense. -/
theorem specCarriesScheme_http (t : List Char) :
    specCarriesScheme ⟨'h' :: 't' :: 't' :: 'p' :: ':' :: t⟩ = true := by
  simp +decide [specCarriesScheme, List.takeWhile]

/-- Helper: a string starting with `https:` carries a scheme in the
spec's sense. -/
theorem specCarriesScheme_https (t : List Char) :
    specCarriesScheme ⟨'h' :: 't' :: 't' :: 'p' :: 's' :: ':' :: t⟩ = true := by
  simp +decide [specCarriesScheme, List.takeWhile]

/-- Helper: starting with `http://` implies carrying a scheme. -/
theorem startsWith_http_carriesScheme (url : String) (h : jsStartsWith url "http://" = true) :
    specCarriesScheme url = true := by
  unfold jsStartsWith at h
  rw [ List.isPrefixOf_iff_prefix] at h
  obtain ⟨t, ht⟩ := h
  have hdata : url.data = 'h' :: 't' :: 't' :: 'p' :: ':' :: ('/' :: '/' :: t) := by
    rw [← ht]
    rfl
  calc specCarriesScheme url = specCarriesScheme ⟨url.data⟩ := rfl
    _ = specCarriesScheme ⟨'h' :: 't' :: 't' :: 'p' :: ':' :: ('/' :: '/' :: t)⟩ := by rw [hdata]
    _ = true := specCarriesScheme_http _

/-- Helper: starting with `https://` implies carrying a scheme. -/
theorem startsWith_https_carriesScheme (url : String) (h : jsStartsWith url "https://" = true) :
    specCarriesScheme url = true := by
  unfold jsStartsWith at h
  rw [ List.isPrefixOf_iff_prefix] at h
  obtain ⟨t, ht⟩ := h
  have hdata : url.data = 'h' :: 't' :: 't' :: 'p' :: 's' :: ':' :: ('/' :: '/' :: t) := by
    rw [← ht]
    rfl
  calc specCarriesScheme url = specCarriesScheme ⟨url.data⟩ := rfl
    _ = specCarriesScheme ⟨'h' :: 't' :: 't' :: 'p' :: 's' :: ':' :: ('/' :: '/' :: t)⟩ := by
        rw [hdata]
    _ = true := specCarriesScheme_https _

/-- C8 counterexample: `ftp://example.com` carries a scheme, yet the
endpoint's normalization does not pass it through unchanged — it
prepends `https://`, contradicting the claim that any input already
carrying a scheme is left as is. -/
theorem normalizeUrl_scheme_counterexample :
    specCarriesScheme "ftp://example.com" = true ∧
    normalizeUrl "ftp://example.com" = "https://ftp://example.com" ∧
    ¬ normalizeUrl "ftp://example.com" = "ftp://example.com" := by
  decide

/-- C8 amended: an input with no scheme gets `https://` prepended, and an
input is passed through unchanged exactly when it starts with
`http://` or `https://`; any other input — even one carrying a
non-HTTP scheme — also gets `https://` prepended. -/
theorem normalizeUrl_spec (url : String) :
    (specCarriesScheme url = false → normalizeUrl url = "https://" ++ url) ∧
    ((jsStartsWith url "http://" = true ∨ jsStartsWith url "https://" = true) →
      normalizeUrl url = url) ∧
    (jsStartsWith url "http://" = false → jsStartsWith url "https://" = false →
      normalizeUrl url = "https://" ++ url) := by
  refine ⟨?_, ?_, ?_⟩
  · intro hns
    have h1 : jsStartsWith url "http://" = false := by
      cases h : jsStartsWith url "http://" with
      | false => rfl
      | true => rw [startsWith_http_carriesScheme url h] at hns; cases hns
    have h2 : jsStartsWith url "https://" = false := by
      cases h : jsStartsWith url "https://" with
      | false => rfl
      | true => rw [startsWith_https_carriesScheme url h] at hns; cases hns
    simp [normalizeUrl, h1, h2]
  · rintro (h | h) <;> simp [normalizeUrl, h]
  · intro h1 h2
    simp [normalizeUrl, h1, h2]

/-- Witness for C8 amended at concrete inputs: a bare domain gets the
prefix, an `http://` input passes through. -/
theorem normalizeUrl_spec_witness :
    normalizeUrl "example.com" = "https://example.com" ∧
    normalizeUrl "http://example.com" = "http://example.com" :=
  ⟨(normalizeUrl_spec "example.com").1 (by decide),
   (normalizeUrl_spec "http://example.com").2.1 (Or.inl (by decide))⟩

/-- Helper: `getText` returns at most `limit` entries. -/
theorem getText_length_le (texts : List String) (limit : Nat) :
    (getText texts limit).length ≤ limit := by
  unfold getText
  calc ((texts.take limit).filterMap _).length ≤ (texts.take limit).length :=
        List.length_filterMap_le _ _
    _ ≤ limit := by
        rw [List.length_take]
        exact min_le_left _ _

/-- Helper: `collectLinks` returns at most `limit` links. -/
theorem collectLinks_length_le (l : List (Option String × String)) (limit : Nat) :
    (collectLinks limit l).length ≤ limit := by
  induction l generalizing limit with
  | nil => simp [collectLinks]
  | cons a rest ih =>
    obtain ⟨href?, t⟩ := a
    unfold collectLinks
    by_cases h0 : limit = 0
    · simp [h0]
    · simp only [if_neg h0]
      split
      · simp only [List.length_cons]
        have := ih (limit - 1)
        omega
      · exact ih limit

/-- Helper: the modelled `substring(0, n)` never exceeds `n` characters. -/
theorem jsSubstring_length_le (s : String) (n : Nat) : (jsSubstring s n).length ≤ n := by
  show (s.data.take n).length ≤ n
  rw [List.length_take]
  exact min_le_left _ _

/-- C2 counterexample: a document with sixteen non-empty paragraphs. The
static-HTML extractor emits all sixteen — above the only configured
paragraph cap in the program, the headless script's 15 — so truncation
does not happen in the static normalizer, contradicting the claim that
both extraction paths keep every bounded field within its cap. -/
def sixteenParagraphDoc : Dom :=
  { title := "T"
    metaDescription := some "d"
    ogDescription := none
    mainTexts := ["m"]
    bodyText := "b"
    headings := []
    paragraphTexts := List.replicate 16 "p"
    anchors := [] }

/-- C2 counterexample theorem: on the same sixteen-paragraph document the
static extractor returns 16 paragraphs while the headless extraction
script returns its cap of 15. -/
theorem extractTextContent_unbounded_counterexample :
    (extractTextContent sixteenParagraphDoc).paragraphs.length = 16 ∧
    (pageEvaluateExtract sixteenParagraphDoc).paragraphs.length = 15 ∧
    16 > 15 := by
  decide

/-- C2 amended: the caps hold on the headless extraction path for every
input document — main content at most 3000 characters, at most 25
headings (5 `h1` + 10 `h2` + 10 `h3`), at most 15 paragraphs, at most
30 links — while the static-HTML extractor applies no truncation at
all. -/
theorem pageEvaluateExtract_bounded (d : Dom) :
    (pageEvaluateExtract d).mainContent.length ≤ 3000 ∧
    (pageEvaluateExtract d).headings.length ≤ 25 ∧
    (pageEvaluateExtract d).paragraphs.length ≤ 15 ∧
    (pageEvaluateExtract d).links.length ≤ 30 := by
  refine ⟨?_, ?_, ?_, ?_⟩
  · simp only [pageEvaluateExtract]
    split
    · exact jsSubstring_length_le _ _
    · exact jsSubstring_length_le _ _
  · simp only [pageEvaluateExtract, List.length_append]
    have h1 := getText_length_le (headingsOf d .h1) 5
    have h2 := getText_length_le (headingsOf d .h2) 10
    have h3 := getText_length_le (headingsOf d .h3) 10
    omega
  · exact getText_length_le _ _
  · exact collectLinks_length_le _ _

/-- Helper: the categories field of the result on a parsed object reply,
read off the `try` block. -/
theorem analyzeWebsiteWithGPT_obj_categories (content : PageContent)
    (fields : List (String × JsVal)) (name : JsVal) (now : String) :
    (analyzeWebsiteWithGPT content (.parsed (.obj fields)) name now).categories =
      (match (alistLookup "categories" fields).getD .undefined with
       | .arr xs => if xs.length > 0 then xs.take 3
           else [.str "Technology", .str "Business", .str "Internet"]
       | _ => [.str "Technology", .str "Business", .str "Internet"]) := rfl

/-- Helper: the features field of the result on a parsed object reply. -/
theorem analyzeWebsiteWithGPT_obj_features (content : PageContent)
    (fields : List (String × JsVal)) (name : JsVal) (now : String) :
    (analyzeWebsiteWithGPT content (.parsed (.obj fields)) name now).features =
      (match (alistLookup "features" fields).getD .undefined with
       | .arr xs => if xs.length > 0 then xs.take 3
           else [.str "User-friendly interface", .str "Digital solutions", .str "Online services"]
       | _ => [.str "User-friendly interface", .str "Digital solutions", .str "Online services"]) :=
  rfl

/-- Helper: on every reply the categories list is either one of the
3-entry default lists or the first three entries of a non-empty
upstream list. -/
theorem result_categories_shape (content : PageContent) (reply : GPTReply) (name : JsVal)
    (now : String) :
    (analyzeWebsiteWithGPT content reply name now).categories.length = 3 ∨
    ∃ xs : List JsVal, xs ≠ [] ∧
      (analyzeWebsiteWithGPT content reply name now).categories = xs.take 3 := by
  cases reply with
  | failure => exact Or.inl rfl
  | parsed analysis =>
    cases analysis with
    | null => exact Or.inl rfl
    | undefined => exact Or.inl rfl
    | bool b => exact Or.inl rfl
    | num n => exact Or.inl rfl
    | str s => exact Or.inl rfl
    | arr xs => exact Or.inl rfl
    | obj fields =>
      rw [analyzeWebsiteWithGPT_obj_categories]
      generalize (alistLookup "categories" fields).getD .undefined = v
      cases v with
      | arr xs =>
        by_cases hlen : xs.length > 0
        · right
          refine ⟨xs, ?_, by simp [hlen]⟩
          intro hnil
          simp [hnil] at hlen
        · left
          simp [hlen]
      | null => exact Or.inl rfl
      | undefined => exact Or.inl rfl
      | bool b => exact Or.inl rfl
      | num n => exact Or.inl rfl
      | str s => exact Or.inl rfl
      | obj fs => exact Or.inl rfl

/-- Helper: the same shape fact for the features list. -/
theorem result_features_shape (content : PageContent) (reply : GPTReply) (name : JsVal)
    (now : String) :
    (analyzeWebsiteWithGPT content reply name now).features.length = 3 ∨
    ∃ xs : List JsVal, xs ≠ [] ∧
      (analyzeWebsiteWithGPT content reply name now).features = xs.take 3 := by
  cases reply with
  | failure => exact Or.inl rfl
  | parsed analysis =>
    cases analysis with
    | null => exact Or.inl rfl
    | undefined => exact Or.inl rfl
    | bool b => exact Or.inl rfl
    | num n => exact Or.inl rfl
    | str s => exact Or.inl rfl
    | arr xs => exact Or.inl rfl
    | obj fields =>
      rw [analyzeWebsiteWithGPT_obj_features]
      generalize (alistLookup "features" fields).getD .undefined = v
      cases v with
      | arr xs =>
        by_cases hlen : xs.length > 0
        · right
          refine ⟨xs, ?_, by simp [hlen]⟩
          intro hnil
          simp [hnil] at hlen
        · left
          simp [hlen]
      | null => exact Or.inl rfl
      | undefined => exact Or.inl rfl
      | bool b => exact Or.inl rfl
      | num n => exact Or.inl rfl
      | str s => exact Or.inl rfl
      | obj fs => exact Or.inl rfl

/-- A concrete content record for the counterexample evaluation. -/
def samplePageContent : PageContent :=
  { title := ""
    metaDescription := ""
    mainContent := ""
    headings := []
    paragraphs := []
    links := [] }

/-- C1 counterexample: an upstream reply whose `categories` and
`features` arrays have exactly one entry produces a result with one
entry in each — `slice(0, 3)` truncates but never pads, so a length-1
upstream list does not normalize to exactly 3. -/
theorem categories_length_one_counterexample :
    (analyzeWebsiteWithGPT samplePageContent
      (.parsed (.obj [("description", .str "A sample site."),
                      ("categories", .arr [.str "OnlyCategory"]),
                      ("features", .arr [.str "OnlyFeature"])]))
      (.str "Site") "2026-01-01T00:00:00.000Z").categories.length = 1 ∧
    ¬ (analyzeWebsiteWithGPT samplePageContent
      (.parsed (.obj [("description", .str "A sample site."),
                      ("categories", .arr [.str "OnlyCategory"]),
                      ("features", .arr [.str "OnlyFeature"])]))
      (.str "Site") "2026-01-01T00:00:00.000Z").categories.length = 3 ∧
    (analyzeWebsiteWithGPT samplePageContent
      (.parsed (.obj [("description", .str "A sample site."),
                      ("categories", .arr [.str "OnlyCategory"]),
                      ("features", .arr [.str "OnlyFeature"])]))
      (.str "Site") "2026-01-01T00:00:00.000Z").features.length = 1 := by
  decide

/-- C1 amended: after normalization both lists always have between 1 and
3 entries; an empty or non-array upstream value is replaced by the
3-entry default, an upstream array of length at least 3 (such as 5 or
10) truncates to exactly 3, but upstream arrays of length 1 or 2 pass
through with their own length — `slice(0, 3)` never pads. -/
theorem categories_features_normalized (content : PageContent) (reply : GPTReply)
    (name : JsVal) (now : String) :
    (1 ≤ (analyzeWebsiteWithGPT content reply name now).categories.length ∧
     (analyzeWebsiteWithGPT content reply name now).categories.length ≤ 3 ∧
     1 ≤ (analyzeWebsiteWithGPT content reply name now).features.length ∧
     (analyzeWebsiteWithGPT content reply name now).features.length ≤ 3) ∧
    (∀ fields xs, reply = .parsed (.obj fields) →
      alistLookup "categories" fields = some (.arr xs) →
      (analyzeWebsiteWithGPT content reply name now).categories.length =
        if xs.length = 0 then 3 else min xs.length 3) ∧
    (∀ fields xs, reply = .parsed (.obj fields) →
      alistLookup "features" fields = some (.arr xs) →
      (analyzeWebsiteWithGPT content reply name now).features.length =
        if xs.length = 0 then 3 else min xs.length 3) := by
  refine ⟨⟨?_, ?_, ?_, ?_⟩, ?_, ?_⟩
  · rcases result_categories_shape content reply name now with h | ⟨xs, hne, h⟩
    · omega
    · rw [h, List.length_take]
      have : xs.length ≠ 0 := by
        intro h0
        exact hne (List.length_eq_zero.mp h0)
      omega
  · rcases result_categories_shape content reply name now with h | ⟨xs, hne, h⟩
    · omega
    · rw [h, List.length_take]
      omega
  · rcases result_features_shape content reply name now with h | ⟨xs, hne, h⟩
    · omega
    · rw [h, List.length_take]
      have : xs.length ≠ 0 := by
        intro h0
        exact hne (List.length_eq_zero.mp h0)
      omega
  · rcases result_features_shape content reply name now with h | ⟨xs, hne, h⟩
    · omega
    · rw [h, List.length_take]
      omega
  · intro fields xs hreply hlook
    subst hreply
    rw [analyzeWebsiteWithGPT_obj_categories, hlook]
    by_cases h0 : xs.length = 0
    · simp [h0]
    · have hpos : xs.length > 0 := Nat.pos_of_ne_zero h0
      simp only [Option.getD_some, if_pos hpos, if_neg h0, List.length_take]
      omega
  · intro fields xs hreply hlook
    subst hreply
    rw [analyzeWebsiteWithGPT_obj_features, hlook]
    by_cases h0 : xs.length = 0
    · simp [h0]
    · have hpos : xs.length > 0 := Nat.pos_of_ne_zero h0
      simp only [Option.getD_some, if_pos hpos, if_neg h0, List.length_take]
      omega

/-- Witness for C1 amended at concrete replies: a 5-entry upstream list
truncates to 3 and an empty list is replaced by the 3 defaults. -/
theorem categories_features_normalized_witness :
    (analyzeWebsiteWithGPT samplePageContent
      (.parsed (.obj [("categories",
        .arr [.str "A", .str "B", .str "C", .str "D", .str "E"])]))
      (.str "Site") "2026-01-01T00:00:00.000Z").categories.length =
      (if (5 : Nat) = 0 then 3 else min 5 3) ∧
    (analyzeWebsiteWithGPT samplePageContent
      (.parsed (.obj [("features", .arr ([] : List JsVal))]))
      (.str "Site") "2026-01-01T00:00:00.000Z").features.length =
      (if (0 : Nat) = 0 then 3 else min 0 3) :=
  ⟨(categories_features_normalized samplePageContent
      (.parsed (.obj [("categories",
        .arr [.str "A", .str "B", .str "C", .str "D", .str "E"])]))
      (.str "Site") "2026-01-01T00:00:00.000Z").2.1
      [("categories", .arr [.str "A", .str "B", .str "C", .str "D", .str "E"])]
      [.str "A", .str "B", .str "C", .str "D", .str "E"] rfl rfl,
   (categories_features_normalized samplePageContent
      (.parsed (.obj [("features", .arr ([] : List JsVal))]))
      (.str "Site") "2026-01-01T00:00:00.000Z").2.2
      [("features", .arr ([] : List JsVal))] [] rfl rfl⟩

/-- Helper: a batch reports success exactly when none of its records
fails (processing aborts at the first failing record, so any failing
record makes the whole batch fail). -/
theorem processAirtableBatch_success_iff (kf : String) (fails : SupaRecord → Bool)
    (st : AStore) (rs : List SupaRecord) :
    (processAirtableBatch kf fails st rs).2.2 = true ↔ ∀ r ∈ rs, fails r = false := by
  induction rs generalizing st with
  | nil => simp [processAirtableBatch]
  | cons r rest ih =>
    unfold processAirtableBatch
    by_cases hf : fails r = true
    · simp [hf]
    · simp only [if_neg hf]
      show (processAirtableBatch kf fails (processRecord kf st r).1 rest).2.2 = true ↔ _
      rw [ih ((processRecord kf st r).1)]
      simp only [List.forall_mem_cons]
      have hfr : fails r = false := by
        cases h : fails r with
        | true => exact absurd h hf
        | false => rfl
      simp [hfr]

/-- Helper: `chunksOf10` partitions the record list. -/
theorem chunksOf10_flatten (rs : List SupaRecord) : (chunksOf10 rs).flatten = rs := by
  induction rs using chunksOf10.induct with
  | case1 => simp [chunksOf10]
  | case2 r rest ih =>
    rw [chunksOf10]
    simp only [List.flatten_cons]
    rw [ih]
    exact List.take_append_drop 10 (r :: rest)

/-- Helper: the sequential batch run succeeds exactly when no record of
any batch fails. -/
theorem runBatches_success_iff (kf : String) (fails : SupaRecord → Bool) (st : AStore)
    (bs : List (List SupaRecord)) :
    (runBatches kf fails st bs).2 = true ↔ ∀ b ∈ bs, ∀ r ∈ b, fails r = false := by
  induction bs generalizing st with
  | nil => simp [runBatches]
  | cons b rest ih =>
    unfold runBatches
    by_cases hb : (processAirtableBatch kf fails st b).2.2 = true
    · rw [if_pos hb]
      rw [ih ((processAirtableBatch kf fails st b).1)]
      have hball := (processAirtableBatch_success_iff kf fails st b).mp hb
      simp only [List.forall_mem_cons]
      constructor
      · intro h
        exact ⟨hball, h⟩
      · intro h
        exact h.2
    · rw [if_neg hb]
      have hex : ¬ ∀ r ∈ b, fails r = false := fun hall =>
        hb ((processAirtableBatch_success_iff kf fails st b).mpr hall)
      simp only [List.forall_mem_cons]
      constructor
      · intro h
        exact absurd h (by simp)
      · intro h
        exact absurd h.1 hex

/-- Helper: unfolding equation of `syncToAirtable` on a successful
fetch. -/
theorem syncToAirtable_ok_eq (kf : String) (fails : SupaRecord → Bool)
    (records : List SupaRecord) (st : AStore) (last : Option Nat) (now : Nat) :
    syncToAirtable kf fails (.ok records) st last now =
      (if (runBatches kf fails st (chunksOf10 records)).2 = true
       then ((runBatches kf fails st (chunksOf10 records)).1, some now)
       else ((runBatches kf fails st (chunksOf10 records)).1, last)) := rfl

/-- C4: the cursor returned by a sync pass advances to the current time
only when the whole fetch set was processed without error; a
fetch-level error, and equally a per-row error that aborts the
remaining batches, returns the prior cursor unchanged so the same
window is retried on the next cycle. -/
theorem syncToAirtable_cursor (kf : String) (fails : SupaRecord → Bool) (st : AStore)
    (last : Option Nat) (now : Nat) :
    ((syncToAirtable kf fails .err st last now).2 = last) ∧
    (∀ records, (∃ r ∈ records, fails r = true) →
      (syncToAirtable kf fails (.ok records) st last now).2 = last) ∧
    (∀ records, (∀ r ∈ records, fails r = false) →
      (syncToAirtable kf fails (.ok records) st last now).2 = some now) := by
  refine ⟨rfl, ?_, ?_⟩
  · rintro records ⟨r, hr, hfail⟩
    have hmem : ∃ b ∈ chunksOf10 records, r ∈ b := by
      rw [← chunksOf10_flatten records] at hr
      exact List.mem_flatten.mp hr
    have hfalse : ¬ (runBatches kf fails st (chunksOf10 records)).2 = true := by
      intro hsucc
      obtain ⟨b, hb, hrb⟩ := hmem
      have := (runBatches_success_iff kf fails st (chunksOf10 records)).mp hsucc b hb r hrb
      rw [hfail] at this
      cases this
    rw [syncToAirtable_ok_eq, if_neg hfalse]
  · intro records hall
    have htrue : (runBatches kf fails st (chunksOf10 records)).2 = true := by
      rw [runBatches_success_iff]
      intro b hb r hrb
      refine hall r ?_
      rw [← chunksOf10_flatten records]
      exact List.mem_flatten.mpr ⟨b, hb, hrb⟩
    rw [syncToAirtable_ok_eq, if_pos htrue]

/-- Witness for C4 at concrete inputs: a failing fetch and a failing row
both leave the cursor at its prior value, a clean pass advances it. -/
theorem syncToAirtable_cursor_witness :
    (syncToAirtable "id" (fun _ => false) .err ⟨[], 0⟩ (some 5) 9).2 = some 5 ∧
    (syncToAirtable "id" (fun _ => true) (.ok [[("id", JsVal.str "a")]]) ⟨[], 0⟩
      (some 5) 9).2 = some 5 ∧
    (syncToAirtable "id" (fun _ => false) (.ok [[("id", JsVal.str "a")]]) ⟨[], 0⟩
      (some 5) 9).2 = some 9 :=
  ⟨(syncToAirtable_cursor "id" (fun _ => false) ⟨[], 0⟩ (some 5) 9).1,
   (syncToAirtable_cursor "id" (fun _ => true) ⟨[], 0⟩ (some 5) 9).2.1
     [[("id", JsVal.str "a")]] ⟨[("id", JsVal.str "a")], by simp, rfl⟩,
   (syncToAirtable_cursor "id" (fun _ => false) ⟨[], 0⟩ (some 5) 9).2.2
     [[("id", JsVal.str "a")]] (by simp)⟩

/-- Helper: distinct field names, as `Object.entries` of a JavaScript
object guarantees. -/
def nodupKeys : List String → Bool
  | [] => true
  | k :: rest => !(decide (k ∈ rest)) && nodupKeys rest

/-- A record suitable for keyed reconciliation: its key field is present
with a non-array (scalar) value — true of the `id` primary-key column
of both synced tables — and its field names are distinct. -/
def goodRecord (kf : String) (r : SupaRecord) : Bool :=
  (match alistLookup kf r with
   | some (.arr _) => false
   | some _ => true
   | none => false) && nodupKeys (r.map Prod.fst)

/-- Whether some destination row matches the key lookup formula. -/
def storeHasKey (kf keyStr : String) (st : AStore) : Bool :=
  st.rows.any (matchesKey kf keyStr)

/-- Destination-store well-formedness: record ids are unique (as Airtable
guarantees) and the model's fresh-id counter is above every existing
id. -/
def AStore.WF (st : AStore) : Prop :=
  (st.rows.map ARow.rid).Nodup ∧ ∀ row ∈ st.rows, row.rid < st.nextId

/-- Helper: looking a key up in the prepared record is looking it up in
the source record and converting. -/
theorem alistLookup_prepareRecord (kf : String) (r : SupaRecord) :
    alistLookup kf (prepareRecord r) = (alistLookup kf r).map prepareVal := by
  induction r with
  | nil => rfl
  | cons kv rest ih =>
    obtain ⟨k0, v0⟩ := kv
    show alistLookup kf ((k0, prepareVal v0) :: prepareRecord rest) = _
    unfold alistLookup
    by_cases h : k0 = kf
    · simp [h]
    · simp [h, ih]

/-- Helper: preparation keeps the field names. -/
theorem prepareRecord_keys (r : SupaRecord) :
    (prepareRecord r).map Prod.fst = r.map Prod.fst := by
  induction r with
  | nil => rfl
  | cons kv rest ih =>
    show (kv.1, prepareVal kv.2).1 :: (prepareRecord rest).map Prod.fst = _
    rw [ih]
    rfl

/-- Helper: setting a field makes it readable. -/
theorem alistLookup_setField_self (p : List (String × PreparedVal)) (k : String)
    (v : PreparedVal) : alistLookup k (setField p k v) = some v := by
  induction p with
  | nil => simp [setField, alistLookup]
  | cons kv rest ih =>
    obtain ⟨k0, v0⟩ := kv
    unfold setField
    by_cases h : k0 = k
    · simp [h, alistLookup]
    · simp [h, alistLookup, ih]

/-- Helper: setting a different field leaves a lookup unchanged. -/
theorem alistLookup_setField_ne (p : List (String × PreparedVal)) (k0 k : String)
    (v : PreparedVal) (h : k0 ≠ k) :
    alistLookup k (setField p k0 v) = alistLookup k p := by
  induction p with
  | nil => simp [setField, alistLookup, h]
  | cons kv rest ih =>
    obtain ⟨k1, v1⟩ := kv
    unfold setField
    by_cases h1 : k1 = k0
    · subst h1
      simp [alistLookup, h]
    · simp only [if_neg h1]
      unfold alistLookup
      by_cases h2 : k1 = k
      · simp [h2]
      · simp [h2, ih]

/-- Helper: merging fields none of which is `k` leaves the `k` lookup
unchanged. -/
theorem alistLookup_updateFields_not_mem (upd : List (String × PreparedVal)) (k : String) :
    ∀ p, (∀ kv ∈ upd, kv.1 ≠ k) →
      alistLookup k (updateFields p upd) = alistLookup k p := by
  induction upd with
  | nil => intro p _; rfl
  | cons kv rest ih =>
    intro p h
    obtain ⟨k0, v0⟩ := kv
    show alistLookup k (updateFields (setField p k0 v0) rest) = _
    rw [ih (setField p k0 v0) (fun kv hkv => h kv (List.mem_cons_of_mem _ hkv))]
    exact alistLookup_setField_ne p k0 k v0 (h (k0, v0) (List.mem_cons_self _ _))

/-- Helper: merging a duplicate-free field set makes each of its fields
readable afterwards. -/
theorem alistLookup_updateFields (upd : List (String × PreparedVal)) (k : String)
    (v : PreparedVal) :
    ∀ p, nodupKeys (upd.map Prod.fst) = true → alistLookup k upd = some v →
      alistLookup k (updateFields p upd) = some v := by
  induction upd with
  | nil => intro p _ hlk; cases hlk
  | cons kv rest ih =>
    intro p hnd hlk
    obtain ⟨k0, v0⟩ := kv
    have hnd2 : nodupKeys (rest.map Prod.fst) = true := by
      have := (Bool.and_eq_true _ _).mp hnd
      exact this.2
    have hnotin : ¬ k0 ∈ rest.map Prod.fst := by
      have := ((Bool.and_eq_true _ _).mp hnd).1
      simpa using this
    show alistLookup k (updateFields (setField p k0 v0) rest) = some v
    by_cases h : k0 = k
    · subst h
      rw [alistLookup, if_pos rfl] at hlk
      injection hlk with hv
      rw [alistLookup_updateFields_not_mem rest k0 (setField p k0 v0) ?notmem]
      · rw [alistLookup_setField_self, hv]
      case notmem =>
        intro kv hkv heq
        exact hnotin (heq ▸ List.mem_map_of_mem Prod.fst hkv)
    · rw [alistLookup, if_neg h] at hlk
      exact ih (setField p k0 v0) hnd2 hlk

/-- Helper: a good record's key value is a scalar whose string form is
the interpolated lookup key. -/
theorem goodRecord_key (kf : String) (r : SupaRecord) (hgood : goodRecord kf r = true) :
    ∃ v, alistLookup kf r = some v ∧ prepareVal v = PreparedVal.scalar v ∧
      recordKeyStr kf r = jsToString v := by
  unfold goodRecord at hgood
  cases hv : alistLookup kf r with
  | none => rw [hv] at hgood; simp at hgood
  | some v =>
    rw [hv] at hgood
    refine ⟨v, rfl, ?_, ?_⟩
    · cases v with
      | arr xs => simp at hgood
      | null => rfl
      | undefined => rfl
      | bool b => rfl
      | num n => rfl
      | str s => rfl
      | obj fs => rfl
    · unfold recordKeyStr
      rw [hv]
      rfl

/-- Helper: a good record has duplicate-free field names. -/
theorem goodRecord_nodup (kf : String) (r : SupaRecord) (hgood : goodRecord kf r = true) :
    nodupKeys (r.map Prod.fst) = true :=
  ((Bool.and_eq_true _ _).mp hgood).2

/-- Helper: unfolding equation of `processRecord` when the lookup finds
an existing row. -/
theorem processRecord_found_eq (kf : String) (st : AStore) (r : SupaRecord) (row : ARow)
    (hfind : st.rows.find? (matchesKey kf (recordKeyStr kf r)) = some row) :
    processRecord kf st r =
      ({ st with rows := st.rows.map (fun r0 =>
          if r0.rid = row.rid then
            { r0 with payload := updateFields r0.payload (prepareRecord r) } else r0) },
       .update) := by
  unfold processRecord
  rw [hfind]

/-- Helper: unfolding equation of `processRecord` when the lookup finds
no row. -/
theorem processRecord_none_eq (kf : String) (st : AStore) (r : SupaRecord)
    (hfind : st.rows.find? (matchesKey kf (recordKeyStr kf r)) = none) :
    processRecord kf st r =
      ({ rows := st.rows ++ [⟨st.nextId, prepareRecord r⟩], nextId := st.nextId + 1 },
       .create) := by
  unfold processRecord
  rw [hfind]

/-- Helper: reconciling a good record leaves a destination row matching
its key (the created row, or the updated one). -/
theorem processRecord_hasKey (kf : String) (st : AStore) (r : SupaRecord)
    (hgood : goodRecord kf r = true) :
    storeHasKey kf (recordKeyStr kf r) (processRecord kf st r).1 = true := by
  obtain ⟨v, hv, hprep, hkey⟩ := goodRecord_key kf r hgood
  have hplookup : alistLookup kf (prepareRecord r) = some (PreparedVal.scalar v) := by
    rw [alistLookup_prepareRecord, hv]
    simp [hprep]
  cases hfind : st.rows.find? (matchesKey kf (recordKeyStr kf r)) with
  | some row =>
    rw [processRecord_found_eq kf st r row hfind]
    unfold storeHasKey
    rw [List.any_eq_true]
    refine ⟨{ row with payload := updateFields row.payload (prepareRecord r) }, ?_, ?_⟩
    · have hmem : row ∈ st.rows := List.mem_of_find?_eq_some hfind
      have hstep := List.mem_map_of_mem (fun r0 : ARow =>
        if r0.rid = row.rid then
          { r0 with payload := updateFields r0.payload (prepareRecord r) } else r0) hmem
      simpa using hstep
    · unfold matchesKey
      rw [alistLookup_updateFields (prepareRecord r) kf (PreparedVal.scalar v) _ ?nodup hplookup]
      · rw [hkey]
        simp
      case nodup =>
        rw [prepareRecord_keys]
        exact goodRecord_nodup kf r hgood
  | none =>
    rw [processRecord_none_eq kf st r hfind]
    unfold storeHasKey
    rw [List.any_eq_true]
    refine ⟨⟨st.nextId, prepareRecord r⟩, ?_, ?_⟩
    · simp
    · unfold matchesKey
      rw [hplookup, hkey]
      simp

/-- Helper: reconciling a good record never removes a matching row for
any key: creation only appends, and the update rewrites the matched
row's key field to the same key string. -/
theorem processRecord_preserves_hasKey (kf k : String) (st : AStore) (r : SupaRecord)
    (hgood : goodRecord kf r = true) (hwf : AStore.WF st)
    (hk : storeHasKey kf k st = true) :
    storeHasKey kf k (processRecord kf st r).1 = true := by
  obtain ⟨v, hv, hprep, hkey⟩ := goodRecord_key kf r hgood
  have hplookup : alistLookup kf (prepareRecord r) = some (PreparedVal.scalar v) := by
    rw [alistLookup_prepareRecord, hv]
    simp [hprep]
  unfold storeHasKey at hk
  rw [List.any_eq_true] at hk
  obtain ⟨w, hw, hmatch⟩ := hk
  cases hfind : st.rows.find? (matchesKey kf (recordKeyStr kf r)) with
  | none =>
    rw [processRecord_none_eq kf st r hfind]
    unfold storeHasKey
    rw [List.any_eq_true]
    exact ⟨w, by simp [hw], hmatch⟩
  | some row =>
    rw [processRecord_found_eq kf st r row hfind]
    unfold storeHasKey
    rw [List.any_eq_true]
    by_cases hrid : w.rid = row.rid
    · have hrowmem : row ∈ st.rows := List.mem_of_find?_eq_some hfind
      have hweq : w = row := List.inj_on_of_nodup_map hwf.1 hw hrowmem hrid
      subst hweq
      have hrmatch : matchesKey kf (recordKeyStr kf r) w = true := List.find?_some hfind
      have hkeq : recordKeyStr kf r = k := by
        unfold matchesKey at hmatch hrmatch
        cases hlw : alistLookup kf w.payload with
        | none =>
          rw [hlw] at hmatch
          cases hmatch
        | some pv =>
          rw [hlw] at hmatch hrmatch
          cases pv with
          | serializedArray xs => cases hmatch
          | scalar u =>
            have h1 := of_decide_eq_true hmatch
            have h2 := of_decide_eq_true hrmatch
            rw [← h1, ← h2]
      refine ⟨{ w with payload := updateFields w.payload (prepareRecord r) }, ?_, ?_⟩
      · have hstep := List.mem_map_of_mem (fun r0 : ARow =>
          if r0.rid = w.rid then
            { r0 with payload := updateFields r0.payload (prepareRecord r) } else r0) hw
        simpa using hstep
      · unfold matchesKey
        rw [alistLookup_updateFields (prepareRecord r) kf (PreparedVal.scalar v) _ ?nodup
          hplookup]
        · rw [← hkeq, hkey]
          simp
        case nodup =>
          rw [prepareRecord_keys]
          exact goodRecord_nodup kf r hgood
    · refine ⟨w, ?_, hmatch⟩
      have hstep := List.mem_map_of_mem (fun r0 : ARow =>
        if r0.rid = row.rid then
          { r0 with payload := updateFields r0.payload (prepareRecord r) } else r0) hw
      simpa [hrid] using hstep

/-- Helper: reconciliation preserves destination-store well-formedness. -/
theorem processRecord_WF (kf : String) (st : AStore) (r : SupaRecord) (hwf : AStore.WF st) :
    AStore.WF (processRecord kf st r).1 := by
  cases hfind : st.rows.find? (matchesKey kf (recordKeyStr kf r)) with
  | some row =>
    rw [processRecord_found_eq kf st r row hfind]
    have hfr : ∀ r0 : ARow,
        (if r0.rid = row.rid then
          { r0 with payload := updateFields r0.payload (prepareRecord r) } else r0).rid =
          r0.rid := by
      intro r0
      by_cases h : r0.rid = row.rid <;> simp [h]
    constructor
    · have hmap : (st.rows.map (fun r0 : ARow =>
          if r0.rid = row.rid then
            { r0 with payload := updateFields r0.payload (prepareRecord r) } else r0)).map
            ARow.rid = st.rows.map ARow.rid := by
        rw [List.map_map]
        exact List.map_congr_left (fun r0 _ => hfr r0)
      rw [hmap]
      exact hwf.1
    · intro row0 hrow0
      obtain ⟨r0, hr0, hfr0⟩ := List.mem_map.mp hrow0
      rw [← hfr0]
      rw [hfr r0]
      exact hwf.2 r0 hr0
  | none =>
    rw [processRecord_none_eq kf st r hfind]
    constructor
    · rw [List.map_append]
      refine List.Nodup.append hwf.1 (List.nodup_singleton _) ?_
      intro a ha hb
      simp at hb
      subst hb
      obtain ⟨r0, hr0, ha'⟩ := List.mem_map.mp ha
      have := hwf.2 r0 hr0
      omega
    · intro row0 hrow0
      show row0.rid < st.nextId + 1
      rcases List.mem_append.mp hrow0 with h | h
      · have := hwf.2 row0 h
        omega
      · simp at h
        subst h
        show st.nextId < st.nextId + 1
        omega

/-- Helper: a batch run preserves destination-store well-formedness. -/
theorem processAirtableBatch_WF (kf : String) (fails : SupaRecord → Bool)
    (rs : List SupaRecord) :
    ∀ st : AStore, AStore.WF st → AStore.WF (processAirtableBatch kf fails st rs).1 := by
  induction rs with
  | nil =>
    intro st hwf
    exact hwf
  | cons r rest ih =>
    intro st hwf
    unfold processAirtableBatch
    by_cases hf : fails r = true
    · simp only [if_pos hf]
      exact hwf
    · simp only [if_neg hf]
      show AStore.WF (processAirtableBatch kf fails (processRecord kf st r).1 rest).1
      exact ih _ (processRecord_WF kf st r hwf)

/-- Helper: a batch run over good records preserves every matching key
already present in the destination store. -/
theorem processAirtableBatch_preserves_hasKey (kf k : String) (fails : SupaRecord → Bool)
    (rs : List SupaRecord) :
    ∀ st : AStore, (∀ r ∈ rs, goodRecord kf r = true) → AStore.WF st →
      storeHasKey kf k st = true →
      storeHasKey kf k (processAirtableBatch kf fails st rs).1 = true := by
  induction rs with
  | nil =>
    intro st _ _ hk
    exact hk
  | cons r rest ih =>
    intro st hall hwf hk
    unfold processAirtableBatch
    by_cases hf : fails r = true
    · simp only [if_pos hf]
      exact hk
    · simp only [if_neg hf]
      show storeHasKey kf k (processAirtableBatch kf fails (processRecord kf st r).1 rest).1 =
        true
      exact ih _ (fun r' h => hall r' (List.mem_cons_of_mem _ h))
        (processRecord_WF kf st r hwf)
        (processRecord_preserves_hasKey kf k st r (hall r (List.mem_cons_self _ _)) hwf hk)

/-- Helper: after a clean batch run over good records, every processed
record's key matches some destination row. -/
theorem processAirtableBatch_establishes (kf : String) (fails : SupaRecord → Bool)
    (rs : List SupaRecord) :
    ∀ (st : AStore) (r : SupaRecord), (∀ r' ∈ rs, goodRecord kf r' = true) → AStore.WF st →
      (∀ r' ∈ rs, fails r' = false) → r ∈ rs →
      storeHasKey kf (recordKeyStr kf r) (processAirtableBatch kf fails st rs).1 = true := by
  induction rs with
  | nil =>
    intro st r _ _ _ h
    cases h
  | cons r0 rest ih =>
    intro st r hall hwf hnf hr
    unfold processAirtableBatch
    have hf : fails r0 = false := hnf r0 (List.mem_cons_self _ _)
    simp only [if_neg (by simp [hf] : ¬ fails r0 = true)]
    show storeHasKey kf (recordKeyStr kf r)
      (processAirtableBatch kf fails (processRecord kf st r0).1 rest).1 = true
    rcases List.mem_cons.mp hr with rfl | hr'
    · exact processAirtableBatch_preserves_hasKey kf (recordKeyStr kf r) fails rest _
        (fun r' h => hall r' (List.mem_cons_of_mem _ h))
        (processRecord_WF kf st r hwf)
        (processRecord_hasKey kf st r (hall r (List.mem_cons_self _ _)))
    · exact ih _ r (fun r' h => hall r' (List.mem_cons_of_mem _ h))
        (processRecord_WF kf st r0 hwf)
        (fun r' h => hnf r' (List.mem_cons_of_mem _ h)) hr'

/-- Helper: reconciling a record whose key already matches a destination
row performs an update and does not change the row count. -/
theorem processRecord_update_of_hasKey (kf : String) (st : AStore) (r : SupaRecord)
    (hk : storeHasKey kf (recordKeyStr kf r) st = true) :
    (processRecord kf st r).2 = AirOp.update ∧
    (processRecord kf st r).1.rows.length = st.rows.length := by
  unfold storeHasKey at hk
  rw [List.any_eq_true] at hk
  obtain ⟨w, hw, hmatch⟩ := hk
  cases hfind : st.rows.find? (matchesKey kf (recordKeyStr kf r)) with
  | none =>
    rw [List.find?_eq_none] at hfind
    exact absurd hmatch (hfind w hw)
  | some row =>
    rw [processRecord_found_eq kf st r row hfind]
    exact ⟨rfl, List.length_map _ _⟩

/-- Helper: a clean batch run over records whose keys are all already
present performs only updates and leaves the row count unchanged. -/
theorem processAirtableBatch_allUpdates (kf : String) (rs : List SupaRecord) :
    ∀ st : AStore, (∀ r ∈ rs, goodRecord kf r = true) → AStore.WF st →
      (∀ r ∈ rs, storeHasKey kf (recordKeyStr kf r) st = true) →
      (∀ op ∈ (processAirtableBatch kf (fun _ => false) st rs).2.1, op = AirOp.update) ∧
      (processAirtableBatch kf (fun _ => false) st rs).1.rows.length = st.rows.length := by
  induction rs with
  | nil =>
    intro st _ _ _
    exact ⟨fun op h => absurd h (List.not_mem_nil op), rfl⟩
  | cons r rest ih =>
    intro st hall hwf hkeys
    have hhead := processRecord_update_of_hasKey kf st r (hkeys r (List.mem_cons_self _ _))
    have hrest := ih (processRecord kf st r).1
      (fun r' h => hall r' (List.mem_cons_of_mem _ h))
      (processRecord_WF kf st r hwf)
      (fun r' h => processRecord_preserves_hasKey kf (recordKeyStr kf r') st r
        (hall r (List.mem_cons_self _ _)) hwf (hkeys r' (List.mem_cons_of_mem _ h)))
    unfold processAirtableBatch
    simp only [if_neg (by simp : ¬ (fun (_ : SupaRecord) => false) r = true)]
    constructor
    · show ∀ op ∈ (processRecord kf st r).2 ::
        (processAirtableBatch kf (fun _ => false) (processRecord kf st r).1 rest).2.1,
        op = AirOp.update
      intro op hop
      rcases List.mem_cons.mp hop with rfl | hop'
      · exact hhead.1
      · exact hrest.1 op hop'
    · show (processAirtableBatch kf (fun _ => false)
        (processRecord kf st r).1 rest).1.rows.length = st.rows.length
      rw [hrest.2, hhead.2]

/-- C5: reconciliation is idempotent per identifying key — for every
well-formed destination-store state and every fetched window of
key-carrying records, a second clean pass of `processAirtableBatch`
over the same unchanged rows performs only updates (every record
matches an existing destination row by the key field) and creates no
rows, so no duplicates arise. -/
theorem processAirtableBatch_idempotent (kf : String) (st0 : AStore) (rs : List SupaRecord)
    (hwf : AStore.WF st0) (hall : ∀ r ∈ rs, goodRecord kf r = true) :
    (∀ op ∈ (processAirtableBatch kf (fun _ => false)
        (processAirtableBatch kf (fun _ => false) st0 rs).1 rs).2.1, op = AirOp.update) ∧
    (processAirtableBatch kf (fun _ => false)
        (processAirtableBatch kf (fun _ => false) st0 rs).1 rs).1.rows.length =
      (processAirtableBatch kf (fun _ => false) st0 rs).1.rows.length := by
  have hwf1 := processAirtableBatch_WF kf (fun _ => false) rs st0 hwf
  have hkeys : ∀ r ∈ rs, storeHasKey kf (recordKeyStr kf r)
      (processAirtableBatch kf (fun _ => false) st0 rs).1 = true := by
    intro r hr
    exact processAirtableBatch_establishes kf (fun _ => false) rs st0 r hall hwf
      (fun _ _ => rfl) hr
  exact processAirtableBatch_allUpdates kf rs _ hall hwf1 hkeys

/-- Witness for C5 at a concrete input: one record with a scalar `id`
and an array field, reconciled twice into an empty store — the second
pass is a single update and the row count stays at one. -/
theorem processAirtableBatch_idempotent_witness :
    (∀ op ∈ (processAirtableBatch "id" (fun _ => false)
        (processAirtableBatch "id" (fun _ => false) ⟨[], 0⟩
          [[("id", JsVal.str "a"), ("tags", JsVal.arr [JsVal.str "x"])]]).1
        [[("id", JsVal.str "a"), ("tags", JsVal.arr [JsVal.str "x"])]]).2.1,
      op = AirOp.update) ∧
    (processAirtableBatch "id" (fun _ => false)
        (processAirtableBatch "id" (fun _ => false) ⟨[], 0⟩
          [[("id", JsVal.str "a"), ("tags", JsVal.arr [JsVal.str "x"])]]).1
        [[("id", JsVal.str "a"), ("tags", JsVal.arr [JsVal.str "x"])]]).1.rows.length =
      (processAirtableBatch "id" (fun _ => false) ⟨[], 0⟩
        [[("id", JsVal.str "a"), ("tags", JsVal.arr [JsVal.str "x"])]]).1.rows.length :=
  processAirtableBatch_idempotent "id" ⟨[], 0⟩
    [[("id", JsVal.str "a"), ("tags", JsVal.arr [JsVal.str "x"])]]
    ⟨List.nodup_nil, fun row h => absurd h (List.not_mem_nil row)⟩
    (by decide)
